import Mathlib

/-!
A shallow embedding of the accounts store of the satsigner wallet
application (`store/accounts`), of the label-import screen, and proofs
about their operations.

The zustand store is embedded as explicit state passing over
`AccountsState`: `get()` reads the current state value, `set` builds the
next one.  External capabilities (the mempool oracle, the bdk wallet
library) are an explicit `Env` of functions; awaited calls that may reject
have `Except String` result types.  JS `undefined` is `Option.none`; a JS
`TypeError` raised by a property access on `undefined` is `Except.error`.
-/

/-- One output of a transaction as stored on an account:
`{ value, address }`, built in `getTx` from the oracle response. -/
structure TxOut where
  value : Nat
  address : String
  deriving DecidableEq

/-- Modelled from the spec: the `Transaction` model type (its definition
file `types/models/Transaction` is not among the sources).  The fields are
exactly the ones the store code constructs and reads: `id`, `type`,
`sent`, `received`, `timestamp` (a JS `Date`, modelled as the numeric
block time), `size` and `vout`. -/
structure Transaction where
  id : String
  type : String
  sent : Nat
  received : Nat
  timestamp : Nat
  size : Nat
  vout : List TxOut
  deriving DecidableEq

/-- Modelled from the spec: the `Utxo` model type (`types/models/Utxo` is
not among the sources).  `(txid, vout)` is the composite key; `label` is
optional user metadata, absent on a freshly derived utxo. -/
structure Utxo where
  txid : String
  vout : Nat
  value : Nat
  timestamp : Nat
  addressTo : String
  keychain : String
  label : Option String := none
  deriving DecidableEq

/-- Modelled from the spec: the `summary` of an account, "aggregate
balance figures"; its exact field list is not among the sources, a single
aggregate figure suffices for the store-level statements. -/
structure Summary where
  balance : Nat
  deriving DecidableEq

/-- Modelled from the spec: the `Account` model type
(`types/models/Account` is not among the sources).  Fields follow the
data model: unique `name`, the external/internal descriptor pair, a
derived `address` (read by the flow screen), `transactions`, `utxos`,
`summary`, `scriptVersion` and `seedWords`. -/
structure Account where
  name : String
  externalDescriptor : String
  internalDescriptor : String
  address : String
  transactions : List Transaction
  utxos : List Utxo
  summary : Summary
  scriptVersion : String
  seedWords : String
  deriving DecidableEq

/-- `AccountsState` (store source, lines 18–21): the persisted state is
the account list plus the flat tag list. -/
structure AccountsState where
  accounts : List Account
  tags : List String
  deriving DecidableEq

/-- One output in the chain-indexer response:
`{ value, scriptpubkey_address }`. -/
structure EsploraTxOut where
  value : Nat
  scriptpubkey_address : String
  deriving DecidableEq

/-- The `status` object of the chain-indexer response. -/
structure EsploraStatus where
  block_time : Nat
  deriving DecidableEq

/-- The chain-indexer transaction response shape:
`{ txid, size, status: { block_time }, vout: [...] }`. -/
structure EsploraTx where
  txid : String
  size : Nat
  status : EsploraStatus
  vout : List EsploraTxOut
  deriving DecidableEq

/-- The snapshot returned by the wallet library's `getWalletData`. -/
structure WalletData where
  transactions : List Transaction
  utxos : List Utxo
  summary : Summary
  deriving DecidableEq

/-- The sync options `{ retries, stopGap, timeout }` passed through to the
wallet library. -/
structure SyncOpts where
  retries : Nat
  stopGap : Nat
  timeout : Nat
  deriving DecidableEq

/-- An opaque bdk wallet handle. -/
structure Wallet where
  handle : Nat
  deriving DecidableEq

/-- The external capabilities together with the blockchain-store
configuration read via `useBlockchainStore.getState()`.
`getTransaction url txid` models `new MempoolOracle(url).getTransaction(txid)`;
`syncWalletExternal` models the bdk-level `syncWallet` call and
`getWalletData` the bdk `getWalletData` call. -/
structure Env where
  backend : String
  network : String
  url : String
  retries : Nat
  stopGap : Nat
  timeout : Nat
  getTransaction : String → String → Except String EsploraTx
  syncWalletExternal : Wallet → String → String → SyncOpts → Except String Unit
  getWalletData : Wallet → String → Except String WalletData

/-- `getCurrentAccount` (lines 143–145): linear lookup of the first
account with the given name. -/
def getCurrentAccount (st : AccountsState) (name : String) : Option Account :=
  st.accounts.find? (fun account => account.name == name)

/-- `hasAccountWithName` (lines 146–148). -/
def hasAccountWithName (st : AccountsState) (name : String) : Bool :=
  (st.accounts.find? (fun account => account.name == name)).isSome

/-- `addAccount` (lines 180–186): `state.accounts.push(account)` — an
unconditional append, with no uniqueness check. -/
def addAccount (st : AccountsState) (account : Account) : AccountsState :=
  { st with accounts := st.accounts ++ [account] }

/-- `updateAccount` (lines 187–196): `findIndex` on the name, replace at
that position when found (`index !== -1`), otherwise leave the state as
it is. -/
def updateAccount (st : AccountsState) (account : Account) : AccountsState :=
  match st.accounts.findIdx? (fun a => a.name == account.name) with
  | some index => { st with accounts := st.accounts.set index account }
  | none => st

/-- `deleteAccounts` (lines 197–199): `set(() => ({ accounts: [] }))`.
zustand's `set` merges the partial object into the state, so only
`accounts` is replaced and `tags` is kept. -/
def deleteAccounts (st : AccountsState) : AccountsState :=
  { st with accounts := [] }

/-- The JS strict comparison `transaction !== null` in `getTx` (line 68),
applied to the result of `Array.prototype.find`.  `find` yields either
the found element or `undefined`, never `null`, so the comparison is
`true` in both cases. -/
def findResultNeqNull (t : Option Transaction) : Bool :=
  match t with
  | _ => true

/-- `getTx` (lines 63–94).  Looks the transaction up by id and — because
the guard tests `!== null` where `find` misses with `undefined` — always
returns the lookup result; the oracle fetch/append branch below the guard
is unreachable.  A missing account makes `account.transactions` a
property access on `undefined`. -/
def getTx (env : Env) (st : AccountsState) (accountName txid : String) :
    Except String (Option Transaction × AccountsState) :=
  match getCurrentAccount st accountName with
  | none => .error "TypeError: cannot read transactions of undefined"
  | some account =>
    let transaction := account.transactions.find? (fun tx => tx.id == txid)
    if findResultNeqNull transaction then
      .ok (transaction, st)
    else
      match env.getTransaction env.url txid with
      | .error e => .error e
      | .ok data =>
        let t : Transaction :=
          { id := data.txid
            type := "receive"
            sent := 0
            received := 0
            timestamp := data.status.block_time
            size := data.size
            vout := data.vout.map (fun out =>
              { value := out.value, address := out.scriptpubkey_address }) }
        let account1 := { account with transactions := account.transactions ++ [t] }
        .ok (some t, updateAccount st account1)

/-- `getUtxo` (lines 95–121): return the cached utxo for `(txid, vout)`
when present; otherwise resolve the owning transaction through `getTx`,
derive value/address from its output list, append the new utxo to the
account and persist it through `updateAccount`.  `tx.vout[vout].value`
on a missing transaction or an out-of-range output index is a property
access on `undefined`. -/
def getUtxo (env : Env) (st : AccountsState) (accountName txid : String)
    (vout : Nat) : Except String (Utxo × AccountsState) :=
  match getCurrentAccount st accountName with
  | none => .error "TypeError: cannot read utxos of undefined"
  | some account =>
    match account.utxos.find? (fun u => u.txid == txid && u.vout == vout) with
    | some utxo => .ok (utxo, st)
    | none =>
      match getTx env st accountName txid with
      | .error e => .error e
      | .ok (txOpt, st1) =>
        match txOpt with
        | none => .error "TypeError: cannot read vout of undefined"
        | some tx =>
          match tx.vout[vout]? with
          | none => .error "TypeError: cannot read value of undefined"
          | some out =>
            let utxo : Utxo :=
              { txid := txid
                vout := vout
                value := out.value
                timestamp := tx.timestamp
                addressTo := out.address
                keychain := "external" }
            let account1 := { account with utxos := account.utxos ++ [utxo] }
            .ok (utxo, updateAccount st1 account1)

/-- The `set(produce(...))` block of `setUtxoLabel` (lines 134–141):
re-index the accounts list by name (`findIndex`) and assign
`utxos[utxoIndex].label`.  An out-of-range account or utxo index makes
the assignment a property access on `undefined`. -/
def setUtxoLabelProduce (st : AccountsState) (accountName : String)
    (utxoIndex : Nat) (label : String) : Except String AccountsState :=
  match st.accounts.findIdx? (fun a => a.name == accountName) with
  | none => .error "TypeError: cannot read utxos of undefined"
  | some index =>
    match st.accounts[index]? with
    | none => .error "TypeError: cannot read utxos of undefined"
    | some account =>
      match account.utxos[utxoIndex]? with
      | none => .error "TypeError: cannot set label of undefined"
      | some u =>
        let u1 : Utxo := { u with label := some label }
        let account1 : Account := { account with utxos := account.utxos.set utxoIndex u1 }
        .ok { st with accounts := st.accounts.set index account1 }

/-- `setUtxoLabel` (lines 122–142): find the utxo index in the account
read at entry; when missing (`findIndex` gave `-1`), fetch through
`getUtxo` and take `utxoIndex = account.utxos.length`; finally run the
`produce` block on the then-current state.  The local `account` aliases
the live store object, and the nested `getUtxo` pushed the derived utxo
onto that very `utxos` array before persisting the object through
`updateAccount` — so the length read here is the post-push one, modelled
by re-reading the stored account (the same object the alias points at)
from the state `getUtxo` returned.  That length is one past the appended
entry, so the fetch path ends with the `produce` block assigning
`.label` on `undefined`, a `TypeError`.  (The inner `none` arm has no JS
counterpart — after a successful `getUtxo` the account is always
present — and is unreachable.) -/
def setUtxoLabel (env : Env) (st : AccountsState) (accountName txid : String)
    (vout : Nat) (label : String) : Except String AccountsState :=
  match getCurrentAccount st accountName with
  | none => .error "TypeError: cannot read utxos of undefined"
  | some account =>
    match account.utxos.findIdx? (fun u => u.txid == txid && u.vout == vout) with
    | some utxoIndex => setUtxoLabelProduce st accountName utxoIndex label
    | none =>
      match getUtxo env st accountName txid vout with
      | .error e => .error e
      | .ok (_, st1) =>
        match getCurrentAccount st1 accountName with
        | none => .error "TypeError: cannot read utxos of undefined"
        | some aliased =>
          setUtxoLabelProduce st1 accountName aliased.utxos.length label

/-- `syncWallet` (lines 162–179): run the external bdk sync with the
configured backend/url/options, read the wallet snapshot, and return
`{ ...account, transactions, utxos, summary }` — a copy of the argument
with only those three fields replaced.  No `set` call occurs, so the
store state is returned unchanged. -/
def syncWallet (env : Env) (st : AccountsState) (wallet : Wallet)
    (account : Account) : Except String (Account × AccountsState) :=
  let opts : SyncOpts :=
    { retries := env.retries, stopGap := env.stopGap, timeout := env.timeout }
  match env.syncWalletExternal wallet env.backend env.url opts with
  | .error e => .error e
  | .ok _ =>
    match env.getWalletData wallet env.network with
    | .error e => .error e
    | .ok d =>
      .ok ({ account with
              transactions := d.transactions
              utxos := d.utxos
              summary := d.summary }, st)

/-- Whitespace characters of the JSON grammar. -/
def jsonWs (c : Char) : Bool :=
  c == ' ' || c == '\t' || c == '\n' || c == '\r'

/-- Drop leading JSON whitespace. -/
def jsonSkipWs : List Char → List Char
  | [] => []
  | c :: cs => if jsonWs c then jsonSkipWs cs else c :: cs

/-- Consume the remainder of a JSON string literal, the opening quote
already read; any backslash escape is accepted pairwise. -/
def jsonStringRest : List Char → Option (List Char)
  | [] => none
  | '"' :: cs => some cs
  | '\\' :: [] => none
  | '\\' :: _ :: cs => jsonStringRest cs
  | _ :: cs => jsonStringRest cs

/-- Drop leading decimal digits. -/
def jsonDropDigits : List Char → List Char
  | [] => []
  | c :: cs => if c.isDigit then jsonDropDigits cs else c :: cs

/-- Consume one or more decimal digits. -/
def jsonDigits : List Char → Option (List Char)
  | [] => none
  | c :: cs => if c.isDigit then some (jsonDropDigits cs) else none

/-- Consume the exponent part after `e`/`E`. -/
def jsonExpRest (cs : List Char) : Option (List Char) :=
  match cs with
  | '+' :: rest => jsonDigits rest
  | '-' :: rest => jsonDigits rest
  | _ => jsonDigits cs

/-- Consume a JSON number. -/
def jsonNumber (cs : List Char) : Option (List Char) := do
  let cs1 := match cs with
    | '-' :: rest => rest
    | _ => cs
  let cs2 ← jsonDigits cs1
  let cs3 ← match cs2 with
    | '.' :: rest => jsonDigits rest
    | _ => some cs2
  match cs3 with
  | 'e' :: rest => jsonExpRest rest
  | 'E' :: rest => jsonExpRest rest
  | _ => some cs3

/-- Consume an expected keyword tail (`rue`, `alse`, `ull`). -/
def jsonKeyword : List Char → List Char → Option (List Char)
  | [], cs => some cs
  | _ :: _, [] => none
  | x :: ws, c :: cs => if c == x then jsonKeyword ws cs else none

mutual

/-- Modelled from the spec: the syntactic validity of a JSON document is
what decides whether `JSON.parse` returns or raises a `SyntaxError`.
`jsonValue fuel cs` consumes one JSON value (leading whitespace included)
and returns the remaining input, `none` on a syntax error.  Every
(mutual) recursive call spends one unit of fuel. -/
def jsonValue : Nat → List Char → Option (List Char)
  | 0, _ => none
  | fuel + 1, cs =>
    match jsonSkipWs cs with
    | [] => none
    | c :: cs1 =>
      if c == '"' then jsonStringRest cs1
      else if c == 't' then jsonKeyword ['r', 'u', 'e'] cs1
      else if c == 'f' then jsonKeyword ['a', 'l', 's', 'e'] cs1
      else if c == 'n' then jsonKeyword ['u', 'l', 'l'] cs1
      else if c == '[' then
        match jsonSkipWs cs1 with
        | ']' :: rest => some rest
        | rest => jsonItems fuel rest
      else if c == '\x7b' then
        match jsonSkipWs cs1 with
        | '\x7d' :: rest => some rest
        | rest => jsonMembers fuel rest
      else jsonNumber (c :: cs1)

/-- One or more comma-separated array items followed by `]`. -/
def jsonItems : Nat → List Char → Option (List Char)
  | 0, _ => none
  | fuel + 1, cs =>
    match jsonValue fuel cs with
    | none => none
    | some rest =>
      match jsonSkipWs rest with
      | ',' :: rest1 => jsonItems fuel rest1
      | ']' :: rest1 => some rest1
      | _ => none

/-- One or more `"key": value` members followed by the closing brace. -/
def jsonMembers : Nat → List Char → Option (List Char)
  | 0, _ => none
  | fuel + 1, cs =>
    match jsonSkipWs cs with
    | '"' :: cs1 =>
      match jsonStringRest cs1 with
      | none => none
      | some rest =>
        match jsonSkipWs rest with
        | ':' :: rest1 =>
          match jsonValue fuel rest1 with
          | none => none
          | some rest2 =>
            match jsonSkipWs rest2 with
            | ',' :: rest3 => jsonMembers fuel rest3
            | '\x7d' :: rest3 => some rest3
            | _ => none
        | _ => none
    | _ => none

end

/-- Modelled from the spec: `JSON.parse` as used by the label-import
screen — it returns on syntactically valid JSON text and raises a
`SyntaxError` otherwise.  The parsed labels value is kept as the raw
text, since only success or failure is relevant at the store level. -/
def jsonParse (s : String) : Except String String :=
  match jsonValue (4 * s.length + 16) s.data with
  | none => .error "SyntaxError: Unexpected token in JSON"
  | some rest =>
    match jsonSkipWs rest with
    | [] => .ok s
    | _ => .error "SyntaxError: Unexpected token in JSON"

/-- Modelled from the spec: `CSVtoLabels` from `utils/bip329` (not among
the sources).  A BIP-329 CSV line carries at least the `type` and `ref`
columns before the optional label; a line that does not split into at
least two comma-separated fields is malformed and makes the conversion
raise. -/
def csvToLabels (s : String) : Except String String :=
  if (s.splitOn "\n").all (fun line =>
      line.isEmpty ||
        match line.splitOn "," with
        | _ :: _ :: _ => true
        | _ => false) then
    .ok s
  else
    .error "Error: invalid BIP-329 CSV"

/-- `importLabelsFromClipboard` (label-import screen, lines 34–39): pick
the parse according to the selected import type and hand the parsed
labels to the store's `importLabels` action; no try/catch surrounds the
parse, so a parse failure propagates out of the call.  The store's
`importLabels` action is not among the sources and is kept as an
abstract `merge` argument — it is never reached on a parse failure. -/
def importLabelsFromClipboard (merge : String → String → AccountsState → AccountsState)
    (st : AccountsState) (accountId : String) (importType : String)
    (importContent : String) : Except String AccountsState :=
  match (if importType == "JSON" then jsonParse importContent
         else csvToLabels importContent) with
  | .error e => .error e
  | .ok labels => .ok (merge accountId labels st)

/-- A zero summary for the concrete store instances below. -/
def summaryZero : Summary := { balance := 0 }

/-- A transaction with id `"t1"` and two outputs, as cached on an account. -/
def tx1 : Transaction :=
  { id := "t1", type := "receive", sent := 0, received := 0, timestamp := 5,
    size := 200,
    vout := [{ value := 1000, address := "addr1" }, { value := 2000, address := "addr2" }] }

/-- An account named `"A"` caching `tx1` and no utxos. -/
def acctA : Account :=
  { name := "A", externalDescriptor := "wpkh(ext)", internalDescriptor := "wpkh(int)",
    address := "bc1qa", transactions := [tx1], utxos := [], summary := summaryZero,
    scriptVersion := "P2WPKH", seedWords := "alpha" }

/-- Like `acctA` but with an empty transaction cache. -/
def acctNoTx : Account := { acctA with transactions := [] }

/-- A second account that reuses the name `"A"` with different content. -/
def acctAdup : Account := { acctA with address := "bc1qnew" }

/-- An account named `"B"`. -/
def acctB : Account := { acctA with name := "B" }

/-- A store holding only `acctNoTx`. -/
def stMiss : AccountsState := { accounts := [acctNoTx], tags := ["kyc-free"] }

/-- A store holding only `acctA`. -/
def stA : AccountsState := { accounts := [acctA], tags := ["kyc-free"] }

/-- The oracle response for txid `"t1"`. -/
def esp1 : EsploraTx :=
  { txid := "t1", size := 200, status := { block_time := 5 },
    vout := [{ value := 1000, scriptpubkey_address := "addr1" }] }

/-- The utxo `("t1", 0)` as `getUtxo` derives it from `tx1`. -/
def utxoNew : Utxo :=
  { txid := "t1", vout := 0, value := 1000, timestamp := 5, addressTo := "addr1",
    keychain := "external" }

/-- The wallet snapshot served by the concrete environment. -/
def wd0 : WalletData :=
  { transactions := [tx1], utxos := [utxoNew], summary := { balance := 1000 } }

/-- A concrete environment: the oracle serves `"t1"`, the external sync
succeeds and the wallet snapshot is `wd0`. -/
def env0 : Env :=
  { backend := "esplora", network := "signet", url := "https://node.local",
    retries := 3, stopGap := 20, timeout := 10,
    getTransaction := fun _ t => if t == "t1" then .ok esp1 else .error "Not found",
    syncWalletExternal := fun _ _ _ _ => .ok (),
    getWalletData := fun _ _ => .ok wd0 }

/-- `stA` after `getUtxo` has derived and appended `utxoNew`. -/
def stAfter : AccountsState :=
  { accounts := [{ acctA with utxos := [utxoNew] }], tags := ["kyc-free"] }

/-- `utxoNew` relabelled `"coffee"`. -/
def utxoLbl : Utxo := { utxoNew with label := some "coffee" }

/-- `stAfter` after `setUtxoLabel` wrote `"coffee"`. -/
def stLbl : AccountsState :=
  { accounts := [{ acctA with utxos := [utxoLbl] }], tags := ["kyc-free"] }

/-- A concrete wallet handle. -/
def w0 : Wallet := { handle := 7 }

/-- `acctA` with the fields a successful sync overwrites. -/
def acctSynced : Account :=
  { acctA with transactions := wd0.transactions, utxos := wd0.utxos, summary := wd0.summary }

/-- A successful `findIdx?` exposes the element at the found index, which
satisfies the predicate and is the value `find?` returns. -/
theorem findIdx?_some_elim {α : Type} {p : α → Bool} {l : List α} {i : Nat}
    (h : l.findIdx? p = some i) :
    ∃ a, l[i]? = some a ∧ p a = true ∧ l.find? p = some a := by
  induction l generalizing i with
  | nil => simp [List.findIdx?] at h
  | cons x xs ih =>
    rw [List.findIdx?_cons] at h
    by_cases hx : p x
    · rw [if_pos hx] at h
      injection h with h
      subst h
      exact ⟨x, by simp, hx, List.find?_cons_of_pos _ hx⟩
    · rw [if_neg hx, List.findIdx?_succ] at h
      obtain ⟨j, hj, rfl⟩ := Option.map_eq_some'.1 h
      obtain ⟨a, ha, hpa, hfind⟩ := ih hj
      exact ⟨a, by simpa using ha, hpa, by rw [List.find?_cons_of_neg _ hx]; exact hfind⟩

/-- A successful `find?` happens at some index, where the found element sits. -/
theorem find?_some_elim {α : Type} {p : α → Bool} {l : List α} {a : α}
    (h : l.find? p = some a) :
    ∃ i, l.findIdx? p = some i ∧ l[i]? = some a := by
  induction l with
  | nil => simp at h
  | cons x xs ih =>
    by_cases hx : p x
    · rw [List.find?_cons_of_pos _ hx] at h
      injection h with h
      subst h
      exact ⟨0, by simp [List.findIdx?_cons, hx], by simp⟩
    · rw [List.find?_cons_of_neg _ hx] at h
      obtain ⟨i, hi, ha⟩ := ih h
      refine ⟨i + 1, ?_, by simpa using ha⟩
      rw [List.findIdx?_cons, if_neg hx, List.findIdx?_succ]
      simp [hi]

/-- An element that matches, and before which nothing matches, is what
`findIdx?` finds. -/
theorem findIdx?_of_first {α : Type} {p : α → Bool} {l : List α} {i : Nat} {a : α}
    (ha : l[i]? = some a) (hpa : p a = true)
    (hfirst : ∀ j, j < i → ∀ b, l[j]? = some b → p b = false) :
    l.findIdx? p = some i := by
  induction l generalizing i with
  | nil => simp at ha
  | cons x xs ih =>
    cases i with
    | zero =>
      simp only [List.getElem?_cons_zero, Option.some.injEq] at ha
      subst ha
      simp [List.findIdx?_cons, hpa]
    | succ j =>
      have hx : p x = false := hfirst 0 (Nat.succ_pos j) x (by simp)
      rw [List.findIdx?_cons, if_neg (by simp [hx]), List.findIdx?_succ]
      have hrec := ih (by simpa using ha)
        (fun k hk b hb => hfirst (k + 1) (Nat.succ_lt_succ hk) b (by simpa using hb))
      simp [hrec]

/-- Replacing the first match by a still-matching element makes `find?`
return the replacement. -/
theorem find?_set_first {α : Type} {p : α → Bool} {l : List α} {i : Nat} {b : α}
    (h : l.findIdx? p = some i) (hp : p b = true) :
    (l.set i b).find? p = some b := by
  induction l generalizing i with
  | nil => simp [List.findIdx?] at h
  | cons x xs ih =>
    rw [List.findIdx?_cons] at h
    by_cases hx : p x
    · rw [if_pos hx] at h
      injection h with h
      subst h
      simp [List.find?_cons_of_pos _ hp]
    · rw [if_neg hx, List.findIdx?_succ] at h
      obtain ⟨j, hj, rfl⟩ := Option.map_eq_some'.1 h
      rw [List.set_cons_succ, List.find?_cons_of_neg _ hx]
      exact ih hj

/-- Replacing the first match by a still-matching element leaves the
first matching index unchanged. -/
theorem findIdx?_set_first {α : Type} {p : α → Bool} {l : List α} {i : Nat} {b : α}
    (h : l.findIdx? p = some i) (hp : p b = true) :
    (l.set i b).findIdx? p = some i := by
  induction l generalizing i with
  | nil => simp [List.findIdx?] at h
  | cons x xs ih =>
    rw [List.findIdx?_cons] at h
    by_cases hx : p x
    · rw [if_pos hx] at h
      injection h with h
      subst h
      simp [List.findIdx?_cons, hp]
    · rw [if_neg hx, List.findIdx?_succ] at h
      obtain ⟨j, hj, rfl⟩ := Option.map_eq_some'.1 h
      rw [List.set_cons_succ, List.findIdx?_cons, if_neg hx, List.findIdx?_succ]
      simp [ih hj]

/-- `findIdx?` misses exactly when `find?` misses. -/
theorem findIdx?_none_iff_find?_none {α : Type} {p : α → Bool} {l : List α} :
    l.findIdx? p = none ↔ l.find? p = none := by
  rw [List.findIdx?_eq_none_iff, List.find?_eq_none]
  constructor
  · intro h x hx
    simp [h x hx]
  · intro h x hx
    simpa using h x hx

/-- A successful account lookup yields an account carrying the looked-up
name, sitting at the first matching index of the accounts list. -/
theorem getCurrentAccount_elim {st : AccountsState} {n : String} {acc : Account}
    (h : getCurrentAccount st n = some acc) :
    acc.name = n ∧ ∃ k, st.accounts.findIdx? (fun a => a.name == n) = some k ∧
      st.accounts[k]? = some acc := by
  simp only [getCurrentAccount] at h
  have hname := List.find?_some (p := fun account : Account => account.name == n) h
  obtain ⟨k, hk, hka⟩ := find?_some_elim h
  exact ⟨by simpa using hname, k, hk, hka⟩

/-- `updateAccount` with an account whose name resolves at index `k`
replaces exactly position `k`, and a subsequent lookup of that name
returns the updated account. -/
theorem getCurrentAccount_updateAccount {st : AccountsState} {n : String}
    {acc acc1 : Account} (hacc : getCurrentAccount st n = some acc)
    (hname : acc1.name = acc.name) :
    getCurrentAccount (updateAccount st acc1) n = some acc1 ∧
    ∃ k, st.accounts.findIdx? (fun a => a.name == n) = some k ∧
      (updateAccount st acc1).accounts = st.accounts.set k acc1 ∧
      (updateAccount st acc1).tags = st.tags := by
  obtain ⟨hn, k, hk, hka⟩ := getCurrentAccount_elim hacc
  have hname' : acc1.name = n := hname.trans hn
  have hk' : st.accounts.findIdx? (fun a => a.name == acc1.name) = some k := by
    simpa [hname'] using hk
  refine ⟨?_, k, hk, ?_, ?_⟩
  · simp only [getCurrentAccount, updateAccount, hk']
    exact find?_set_first hk (by simp [hname'])
  · simp only [updateAccount, hk']
  · simp only [updateAccount, hk']

/-- Evaluation of the `produce` block of `setUtxoLabel` when every index
resolves: the label of the addressed utxo is replaced in place. -/
theorem setUtxoLabelProduce_ok {st : AccountsState} {n : String} {k idx : Nat}
    {acc acc1 : Account} {u0 u1 : Utxo} {lbl : String}
    (hk : st.accounts.findIdx? (fun a => a.name == n) = some k)
    (hka : st.accounts[k]? = some acc)
    (hu : acc.utxos[idx]? = some u0)
    (hu1 : u1 = { u0 with label := some lbl })
    (hacc1 : acc1 = { acc with utxos := acc.utxos.set idx u1 }) :
    setUtxoLabelProduce st n idx lbl = .ok { st with accounts := st.accounts.set k acc1 } := by
  simp only [setUtxoLabelProduce, hk, hka, hu, hu1, hacc1]

/-- The `!== null` guard of `getTx` is satisfied by any `find` result. -/
theorem findResultNeqNull_eq_true (t : Option Transaction) : findResultNeqNull t = true := rfl

/-- `getTx` always returns the cache lookup and the unchanged state: the
guard `transaction !== null` holds for `undefined` as well, so the fetch
branch is never taken. -/
theorem getTx_eq_lookup {env : Env} {st : AccountsState} {n t : String} {acc : Account}
    (hacc : getCurrentAccount st n = some acc) :
    getTx env st n t = .ok (acc.transactions.find? (fun tx => tx.id == t), st) := by
  simp only [getTx, hacc, findResultNeqNull_eq_true, if_true]

/-- Success cases of `getUtxo`: either the utxo was cached and the state
is untouched, or it was freshly derived from a cached transaction,
appended to the account's utxo list and persisted through
`updateAccount`. -/
theorem getUtxo_ok_cases {env : Env} {st : AccountsState} {n t : String} {v : Nat}
    {u : Utxo} {st1 : AccountsState}
    (h : getUtxo env st n t v = .ok (u, st1)) :
    ∃ acc, getCurrentAccount st n = some acc ∧
      ((acc.utxos.find? (fun w => w.txid == t && w.vout == v) = some u ∧ st1 = st) ∨
       (acc.utxos.find? (fun w => w.txid == t && w.vout == v) = none ∧
        u.txid = t ∧ u.vout = v ∧ u.label = none ∧
        st1 = updateAccount st { acc with utxos := acc.utxos ++ [u] })) := by
  cases hacc : getCurrentAccount st n with
  | none =>
    simp only [getUtxo, hacc] at h
    exact (Except.noConfusion h)
  | some acc =>
    refine ⟨acc, rfl, ?_⟩
    simp only [getUtxo, hacc] at h
    cases hfind : acc.utxos.find? (fun w => w.txid == t && w.vout == v) with
    | some u0 =>
      simp only [hfind] at h
      simp only [Except.ok.injEq, Prod.mk.injEq] at h
      obtain ⟨hu, hst⟩ := h
      subst hu
      subst hst
      exact .inl ⟨rfl, rfl⟩
    | none =>
      simp only [hfind, getTx_eq_lookup hacc] at h
      cases htx : acc.transactions.find? (fun tx => tx.id == t) with
      | none =>
        simp only [htx] at h
        exact (Except.noConfusion h)
      | some tx =>
        simp only [htx] at h
        cases hout : tx.vout[v]? with
        | none =>
          simp only [hout] at h
          exact (Except.noConfusion h)
        | some out =>
          simp only [hout, Except.ok.injEq, Prod.mk.injEq] at h
          obtain ⟨hu, hst⟩ := h
          subst hu
          subst hst
          exact .inr ⟨rfl, rfl, rfl, rfl, rfl⟩

/-- `updateAccount` with an account whose (preserved) name has its first
match at index `k` is exactly a `set` at `k`. -/
theorem updateAccount_eq_set (acc1 : Account) {st : AccountsState} {n : String} {k : Nat}
    (hk : st.accounts.findIdx? (fun a => a.name == n) = some k)
    (hname1 : acc1.name = n) :
    updateAccount st acc1 = { st with accounts := st.accounts.set k acc1 } := by
  have hk' : st.accounts.findIdx? (fun a => a.name == acc1.name) = some k := by
    simpa [hname1] using hk
  simp only [updateAccount, hk']

/-- `getUtxo` on a state whose first `n`-named account was replaced (at
its first matching index) by an account that caches the requested
`(txid, vout)` key returns that cached utxo and the state unchanged. -/
theorem getUtxo_after_relabel (acc1 : Account) (u1 : Utxo) {st : AccountsState}
    {n t : String} {v : Nat} {k : Nat} (env : Env)
    (hk : st.accounts.findIdx? (fun a => a.name == n) = some k)
    (hname1 : acc1.name = n)
    (hfindu : acc1.utxos.find? (fun w => w.txid == t && w.vout == v) = some u1) :
    getUtxo env { st with accounts := st.accounts.set k acc1 } n t v =
      .ok (u1, { st with accounts := st.accounts.set k acc1 }) := by
  have hcur : getCurrentAccount { st with accounts := st.accounts.set k acc1 } n
      = some acc1 := by
    simp only [getCurrentAccount]
    exact find?_set_first hk (by simp [hname1])
  simp only [getUtxo, hcur, hfindu]

/-- C3: `getUtxo` is idempotent under sequential calls: after a first
successful call, repeating the call on the resulting state succeeds with
the very same utxo (equal value included) and returns the state
unchanged — in particular no second entry for `(txid, vout)` is appended
and the account's utxo collection keeps its length. -/
theorem getUtxo_idempotent (env : Env) (st : AccountsState) (n t : String) (v : Nat)
    (u : Utxo) (st1 : AccountsState)
    (h : getUtxo env st n t v = .ok (u, st1)) :
    getUtxo env st1 n t v = .ok (u, st1) := by
  obtain ⟨acc, hacc, hcase⟩ := getUtxo_ok_cases h
  obtain ⟨hn, k, hk, hka⟩ := getCurrentAccount_elim hacc
  rcases hcase with ⟨hfind, rfl⟩ | ⟨hfind, hut, huv, hlbl, rfl⟩
  · simp only [getUtxo, hacc, hfind]
  · rw [updateAccount_eq_set { acc with utxos := acc.utxos ++ [u] } hk hn]
    refine getUtxo_after_relabel { acc with utxos := acc.utxos ++ [u] } u env hk hn ?_
    show (acc.utxos ++ [u]).find? (fun w => w.txid == t && w.vout == v) = some u
    rw [List.find?_append, hfind]
    simp [hut, huv]

/-- C1 (divergence witness): on a cache miss the fetch never happens.
Although the oracle of `env0` can serve txid `"t1"` — so the intended
fetch/construct/append/persist path would have succeeded — `getTx` on an
account whose transaction list lacks `"t1"` returns JS `undefined`
(`none`) and leaves the store unchanged: the guard `transaction !== null`
is satisfied by `undefined`, making the fetch branch dead code.  The
cache-hit half of the claim does hold (see the first conjunct shape: the
lookup result is returned with the state untouched). -/
theorem getTx_miss_skips_fetch :
    env0.getTransaction env0.url "t1" = .ok esp1 ∧
    getTx env0 stMiss "A" "t1" = .ok (none, stMiss) :=
  ⟨rfl, rfl⟩

/-- C4 (counterexample): when an account with the same name already
exists, `addAccount` appends behind it and `getCurrentAccount` — a
first-match lookup — keeps returning the pre-existing account, so the
claim fails at this input. -/
theorem addAccount_shadowed_by_duplicate :
    getCurrentAccount (addAccount stA acctAdup) acctAdup.name ≠ some acctAdup := by
  decide

/-- C4 (amended): for every account `A` and store holding no account
named `A.name` yet, `getCurrentAccount A.name` right after `addAccount A`
returns a value equal to `A`; the lookup is a pure function of the store
state, so this persists until the store is mutated again. -/
theorem addAccount_then_getCurrentAccount (st : AccountsState) (A : Account)
    (h : ∀ a ∈ st.accounts, a.name ≠ A.name) :
    getCurrentAccount (addAccount st A) A.name = some A := by
  have hnone : st.accounts.find? (fun a => a.name == A.name) = none := by
    rw [List.find?_eq_none]
    intro x hx
    simpa using h x hx
  simp [getCurrentAccount, addAccount, List.find?_append, hnone]

/-- Witness for the amended C4 at a concrete input. -/
theorem addAccount_then_getCurrentAccount_witness :
    getCurrentAccount (addAccount { accounts := [], tags := [] } acctA) acctA.name
      = some acctA :=
  addAccount_then_getCurrentAccount { accounts := [], tags := [] } acctA (by simp)

/-- C5: `addAccount` appends unconditionally — the list grows by exactly
one, the previous elements survive as a prefix and the new account sits
at the end — even when an account with the same name already exists (the
statement quantifies over every store state, duplicates included), and
the operation is total, so the call cannot fail. -/
theorem addAccount_appends_unconditionally (st : AccountsState) (A : Account) :
    (addAccount st A).accounts = st.accounts ++ [A] ∧
    (addAccount st A).accounts.length = st.accounts.length + 1 ∧
    (addAccount st A).accounts.take st.accounts.length = st.accounts ∧
    (addAccount st A).tags = st.tags :=
  ⟨rfl, by simp [addAccount], by simp [addAccount, List.take_left], rfl⟩

/-- C8: after `deleteAccounts` the accounts collection is empty, so a
lookup of any name — in particular of any previously existing account —
returns `undefined` (`none`). -/
theorem deleteAccounts_then_lookup_misses (st : AccountsState) (name : String) :
    getCurrentAccount (deleteAccounts st) name = none := rfl

/-- C10: `deleteAccounts` clears only the accounts list; the tags
collection of the store is left unchanged by the call. -/
theorem deleteAccounts_preserves_tags (st : AccountsState) :
    (deleteAccounts st).tags = st.tags ∧ (deleteAccounts st).accounts = [] :=
  ⟨rfl, rfl⟩

/-- C7: `updateAccount` replaces the first account carrying the incoming
name in place — same position, same length, every other position and the
tags untouched — and is a no-op on the accounts list when no account
carries that name. -/
theorem updateAccount_replace_or_noop (st : AccountsState) (A : Account) :
    ((∀ a ∈ st.accounts, a.name ≠ A.name) → updateAccount st A = st) ∧
    (∀ (i : Nat) (B : Account), st.accounts[i]? = some B → B.name = A.name →
      (∀ (j : Nat) (C : Account), j < i → st.accounts[j]? = some C → C.name ≠ A.name) →
      (updateAccount st A).accounts.length = st.accounts.length ∧
      (updateAccount st A).accounts[i]? = some A ∧
      (∀ j, j ≠ i → (updateAccount st A).accounts[j]? = st.accounts[j]?) ∧
      (updateAccount st A).tags = st.tags) := by
  constructor
  · intro h
    have hnone : st.accounts.findIdx? (fun a => a.name == A.name) = none := by
      rw [List.findIdx?_eq_none_iff]
      intro x hx
      simpa using h x hx
    simp only [updateAccount, hnone]
  · intro i B hB hname hfirst
    have hidx : st.accounts.findIdx? (fun a => a.name == A.name) = some i := by
      refine findIdx?_of_first hB (by simp [hname]) ?_
      intro j hj C hC
      simpa using hfirst j C hj hC
    simp only [updateAccount, hidx]
    refine ⟨by simp, ?_, ?_, trivial⟩
    · have hlt : i < st.accounts.length := (List.getElem?_eq_some_iff.1 hB).1
      simp [List.getElem?_set_self hlt]
    · intro j hj
      exact List.getElem?_set_ne (Ne.symm hj)

/-- Witness for C7 at concrete inputs: one replacement, one no-op. -/
theorem updateAccount_replace_or_noop_witness :
    (updateAccount stA acctAdup).accounts[0]? = some acctAdup ∧
    updateAccount stA acctB = stA :=
  ⟨((updateAccount_replace_or_noop stA acctAdup).2 0 acctA rfl rfl
      (fun j C hj _ => absurd hj (Nat.not_lt_zero j))).2.1,
    (updateAccount_replace_or_noop stA acctB).1 (by decide)⟩

/-- C6: a successful `syncWallet` returns the argument account with only
`transactions`, `utxos` and `summary` replaced by the wallet library's
snapshot — every other field of the result equals the argument's — and
the store state comes back unchanged (the call performs no `set`), so
neither the argument account value nor the accounts list is mutated. -/
theorem syncWallet_merges_snapshot (env : Env) (st : AccountsState)
    (w : Wallet) (A a' : Account) (st' : AccountsState)
    (h : syncWallet env st w A = .ok (a', st')) :
    st' = st ∧
    (∃ d, env.getWalletData w env.network = .ok d ∧
      a'.transactions = d.transactions ∧ a'.utxos = d.utxos ∧ a'.summary = d.summary) ∧
    a'.name = A.name ∧ a'.externalDescriptor = A.externalDescriptor ∧
    a'.internalDescriptor = A.internalDescriptor ∧ a'.address = A.address ∧
    a'.scriptVersion = A.scriptVersion ∧ a'.seedWords = A.seedWords := by
  simp only [syncWallet] at h
  cases hs : env.syncWalletExternal w env.backend env.url
      { retries := env.retries, stopGap := env.stopGap, timeout := env.timeout } with
  | error e =>
    simp only [hs] at h
    exact (Except.noConfusion h)
  | ok uu =>
    simp only [hs] at h
    cases hd : env.getWalletData w env.network with
    | error e =>
      simp only [hd] at h
      exact (Except.noConfusion h)
    | ok d =>
      simp only [hd, Except.ok.injEq, Prod.mk.injEq] at h
      obtain ⟨ha, hst⟩ := h
      subst ha
      subst hst
      exact ⟨rfl, ⟨d, rfl, rfl, rfl, rfl⟩, rfl, rfl, rfl, rfl, rfl, rfl⟩

/-- Witness for C6 at a concrete environment and account. -/
theorem syncWallet_merges_snapshot_witness :
    syncWallet env0 stA w0 acctA = .ok (acctSynced, stA) ∧
    acctSynced.name = acctA.name ∧ acctSynced.utxos = wd0.utxos :=
  ⟨rfl, (syncWallet_merges_snapshot env0 stA w0 acctA acctSynced stA rfl).2.2.1, rfl⟩

/-- C9: the label-import parse is unguarded — a parse failure of the
selected JSON format propagates out of `importLabelsFromClipboard`
unchanged, rather than being caught and surfaced as a classified,
recoverable error. -/
theorem importLabels_unguarded_parse
    (merge : String → String → AccountsState → AccountsState)
    (st : AccountsState) (accountId content e : String)
    (h : jsonParse content = .error e) :
    importLabelsFromClipboard merge st accountId "JSON" content = .error e := by
  simp [importLabelsFromClipboard, h]

/-- Witness for C9: `"not json"` is not valid JSON, and importing it with
the JSON import type raises the parse error uncaught. -/
theorem importLabels_unguarded_parse_witness :
    jsonParse "not json" = .error "SyntaxError: Unexpected token in JSON" ∧
    importLabelsFromClipboard (fun _ _ st => st) stA "A" "JSON" "not json"
      = .error "SyntaxError: Unexpected token in JSON" :=
  ⟨rfl, importLabels_unguarded_parse (fun _ _ st => st) stA "A" "not json" _ rfl⟩

/-- Witness for C3 at a concrete input along the fetch-and-append path:
the first call appends the derived utxo, the second returns it with the
state unchanged. -/
theorem getUtxo_idempotent_witness :
    getUtxo env0 stA "A" "t1" 0 = .ok (utxoNew, stAfter) ∧
    getUtxo env0 stAfter "A" "t1" 0 = .ok (utxoNew, stAfter) :=
  ⟨rfl, getUtxo_idempotent env0 stA "A" "t1" 0 utxoNew stAfter rfl⟩


/-- C2 (divergence witness): the fetch path of `setUtxoLabel` cannot
complete.  With transaction `"t1"` cached but the utxo `("t1", 0)` not,
the nested `getUtxo` pushes the derived utxo onto the aliased
`account.utxos` array, so `utxoIndex = account.utxos.length` reads the
post-push length — one past the appended entry — and the `produce`
block assigns `.label` on `undefined`: a TypeError, instead of the
claimed fetch-then-label completion.  The cached half of the claim is
intact, shown by the remaining conjuncts: with the utxo already cached,
`setUtxoLabel` completes and the following `getUtxo` returns the utxo
carrying the new label. -/
theorem setUtxoLabel_fetch_path_throws :
    setUtxoLabel env0 stA "A" "t1" 0 "coffee"
      = .error "TypeError: cannot set label of undefined" ∧
    setUtxoLabel env0 stAfter "A" "t1" 0 "coffee" = .ok stLbl ∧
    getUtxo env0 stLbl "A" "t1" 0 = .ok (utxoLbl, stLbl) ∧
    utxoLbl.label = some "coffee" :=
  ⟨rfl, rfl, rfl, rfl⟩
